import Mathlib

/-!
# ScaleGuardian governance and moderation ledger: a shallow embedding

This file embeds the two Solidity contracts `Moderation` and `Governance`
(the moderation ledger and the governance engine of the ScaleGuardian
repository) and the status/voting-power normalization of the browser
extension's `DAOService` (extension/modules/web3/DAO.js) as executable Lean
functions, and proves the specified properties about them.

Conventions of the embedding:
* Ethereum addresses are modelled as `String`.
* `uint256` is modelled as `Nat`; additions performed by the contracts are
  checked (Solidity ^0.8 reverts on overflow), via `uaddCheck` with the
  explicit bound `2 ^ 256`.
* A reverting call is an `Except.error`; since the whole transaction
  reverts, an operation returns the post-state only on success, which
  models Solidity's all-or-nothing state commitment.
* Solidity `mapping`s are modelled as association lists with a default
  value for absent keys (`0`-like defaults), updated by `setAssoc`;
  dynamic arrays are Lean lists indexed by position.
* OpenZeppelin `AccessControl` role constants (distinct `bytes32` values)
  are modelled by the inductive type `Role`; `onlyRole` and
  `whenNotPaused` guards are inlined at the top of each operation in the
  same order as the modifiers appear in the source.
-/

namespace ScaleGuardian

/-- JS-style map write: replace the binding of `k` if present, else append.
This is the semantics of `m[k] = v` for a Solidity `mapping` modelled as an
association list. -/
def setAssoc {α β : Type} [BEq α] : List (α × β) → α → β → List (α × β)
  | [], k, v => [(k, v)]
  | (k2, v2) :: rest, k, v =>
    if k2 == k then (k, v) :: rest else (k2, v2) :: setAssoc rest k v

theorem lookup_setAssoc_self {α β : Type} [BEq α] [LawfulBEq α]
    (l : List (α × β)) (k : α) (v : β) : (setAssoc l k v).lookup k = some v := by
  induction l with
  | nil => simp [setAssoc, List.lookup]
  | cons hd tl ih =>
    obtain ⟨k2, v2⟩ := hd
    by_cases h : k2 = k
    · simp [setAssoc, h, List.lookup]
    · have hb : (k == k2) = false := by simp [Ne.symm h]
      have hb2 : (k2 == k) = false := by simp [h]
      simp [setAssoc, hb2, List.lookup, hb, ih]

theorem lookup_setAssoc_ne {α β : Type} [BEq α] [LawfulBEq α]
    (l : List (α × β)) (k k2 : α) (v : β) (hne : k2 ≠ k) :
    (setAssoc l k v).lookup k2 = l.lookup k2 := by
  have hb : (k2 == k) = false := by simp [hne]
  induction l with
  | nil => simp [setAssoc, List.lookup, hb]
  | cons hd tl ih =>
    obtain ⟨k3, v3⟩ := hd
    by_cases h : k3 = k
    · simp [setAssoc, h, List.lookup, hb]
    · have hb3 : (k3 == k) = false := by simp [h]
      by_cases h2 : k2 = k3
      · simp [setAssoc, hb3, List.lookup, h2]
      · have hb4 : (k2 == k3) = false := by simp [h2]
        simp [setAssoc, hb3, List.lookup, hb4, ih]

/-- The four distinct `bytes32` role identifiers used by the two contracts
(`DEFAULT_ADMIN_ROLE`, `ADMIN_ROLE`, `MODERATOR_ROLE`, `PROPOSER_ROLE`). -/
inductive Role
  | DEFAULT_ADMIN
  | ADMIN
  | MODERATOR
  | PROPOSER
deriving DecidableEq, BEq, Repr

/-- `AccessControl.hasRole`: membership of `(role, account)` in the role
table. -/
def hasRole (roles : List (Role × String)) (r : Role) (a : String) : Bool :=
  roles.contains (r, a)

/-- `AccessControl._grantRole`: a no-op when the account already holds the
role, else records it. -/
def grantRoleTo (roles : List (Role × String)) (r : Role) (a : String) :
    List (Role × String) :=
  if hasRole roles r a then roles else roles ++ [(r, a)]

/-- `AccessControl._revokeRole`: removes the `(role, account)` pair. -/
def revokeRoleFrom (roles : List (Role × String)) (r : Role) (a : String) :
    List (Role × String) :=
  roles.filter (fun p => ¬ (p = (r, a)))

/-- Revert reasons: `AccessControl` missing-role reverts, `Pausable`
guard reverts (`SystemPaused` in the specification's taxonomy), `require`
message reverts, and checked-arithmetic panics. -/
inductive Err
  | missingRole (r : Role) (account : String)
  | pausedGuard
  | notPausedGuard
  | reverted (msg : String)
  | overflow
deriving DecidableEq, Repr

/-- Whether a call committed (did not revert). -/
def isSuccess {α : Type} (e : Except Err α) : Bool :=
  match e with
  | .ok _ => true
  | .error _ => false

/-- Solidity ^0.8 checked `uint256` addition: reverts (Panic 0x11) instead
of wrapping past `2 ^ 256 - 1`. -/
def uaddCheck (a b : Nat) : Except Err Nat :=
  if a + b < 2 ^ 256 then .ok (a + b) else .error .overflow

theorem isSuccess_ok {α : Type} (e : Except Err α) (h : isSuccess e = true) :
    ∃ x, e = .ok x := by
  cases e with
  | ok x => exact ⟨x, rfl⟩
  | error _ => simp [isSuccess] at h

theorem uaddCheck_ok (a b t : Nat) (h : uaddCheck a b = .ok t) :
    t = a + b ∧ a + b < 2 ^ 256 := by
  unfold uaddCheck at h
  split_ifs at h with hc
  · injection h with h2
    exact ⟨h2.symm, hc⟩

theorem uaddCheck_eq_ok (a b : Nat) (h : a + b < 2 ^ 256) :
    uaddCheck a b = .ok (a + b) := by
  unfold uaddCheck
  rw [if_pos h]

namespace Moderation

/-- The `ModerationRecord` struct of the `Moderation` contract. -/
structure ModerationRecord where
  contentId : String
  contentHash : String
  isFlagged : Bool
  categories : List String
  confidenceScore : Nat
  moderator : String
  timestamp : Nat
  isOverruled : Bool
  reason : String
deriving DecidableEq, Repr

/-- Storage of the `Moderation` contract: role table and pause flag from
the `AccessControl`/`Pausable` bases, the `moderationRecords` array, and
the `contentToRecords` mapping. -/
structure ModState where
  roles : List (Role × String)
  paused : Bool
  moderationRecords : List ModerationRecord
  contentToRecords : List (String × List Nat)
deriving DecidableEq, Repr

/-- The constructor: deployer receives `DEFAULT_ADMIN_ROLE` and
`ADMIN_ROLE`; storage starts empty and unpaused. -/
def initState (deployer : String) : ModState :=
  { roles := [(Role.DEFAULT_ADMIN, deployer), (Role.ADMIN, deployer)]
    paused := false
    moderationRecords := []
    contentToRecords := [] }

/-- `addModerationRecord`: guarded by `onlyRole(MODERATOR_ROLE)` then
`whenNotPaused`, then the three `require`s in source order; appends the
record, indexes it under `contentId`, and returns the new sequential id. -/
def addModerationRecord (s : ModState) (caller : String) (ts : Nat)
    (contentId contentHash : String) (isFlagged : Bool)
    (categories : List String) (confidenceScore : Nat) (reason : String) :
    Except Err (Nat × ModState) :=
  if ¬ hasRole s.roles Role.MODERATOR caller then
    .error (.missingRole Role.MODERATOR caller)
  else if s.paused then .error .pausedGuard
  else if contentId = "" then .error (.reverted "Content ID cannot be empty")
  else if contentHash = "" then .error (.reverted "Content hash cannot be empty")
  else if ¬ (confidenceScore ≤ 1000) then
    .error (.reverted "Confidence score must be between 0-1000")
  else
    let recordId := s.moderationRecords.length
    let record : ModerationRecord :=
      { contentId := contentId
        contentHash := contentHash
        isFlagged := isFlagged
        categories := categories
        confidenceScore := confidenceScore
        moderator := caller
        timestamp := ts
        isOverruled := false
        reason := reason }
    .ok (recordId,
      { s with
        moderationRecords := s.moderationRecords ++ [record]
        contentToRecords :=
          setAssoc s.contentToRecords contentId
            (((s.contentToRecords.lookup contentId).getD []) ++ [recordId]) })

/-- `overruleModeration`: guarded by `onlyRole(ADMIN_ROLE)` then
`whenNotPaused`, then existence, one-shot, and non-empty-reason
`require`s in source order; flips `isOverruled` and replaces `reason`. -/
def overruleModeration (s : ModState) (caller : String) (recordId : Nat)
    (reason : String) : Except Err ModState :=
  if ¬ hasRole s.roles Role.ADMIN caller then
    .error (.missingRole Role.ADMIN caller)
  else if s.paused then .error .pausedGuard
  else
    match s.moderationRecords[recordId]? with
    | none => .error (.reverted "Record does not exist")
    | some r =>
      if r.isOverruled then .error (.reverted "Already overruled")
      else if reason = "" then .error (.reverted "Reason required for overruling")
      else
        .ok { s with
          moderationRecords :=
            s.moderationRecords.set recordId
              { r with isOverruled := true, reason := reason } }

/-- `getModerationRecord`: reverts on an unknown id, else returns the
stored record. -/
def getModerationRecord (s : ModState) (recordId : Nat) :
    Except Err ModerationRecord :=
  match s.moderationRecords[recordId]? with
  | none => .error (.reverted "Record does not exist")
  | some r => .ok r

/-- `getRecordsForContent`: total mapping read; an absent key denotes the
empty array. -/
def getRecordsForContent (s : ModState) (contentId : String) : List Nat :=
  (s.contentToRecords.lookup contentId).getD []

/-- `getTotalRecords`. -/
def getTotalRecords (s : ModState) : Nat :=
  s.moderationRecords.length

/-- `pause` (`onlyRole(ADMIN_ROLE)`, and `_pause` is `whenNotPaused`). -/
def pause (s : ModState) (caller : String) : Except Err ModState :=
  if ¬ hasRole s.roles Role.ADMIN caller then
    .error (.missingRole Role.ADMIN caller)
  else if s.paused then .error .pausedGuard
  else .ok { s with paused := true }

/-- `unpause` (`onlyRole(ADMIN_ROLE)`, and `_unpause` is `whenPaused`). -/
def unpause (s : ModState) (caller : String) : Except Err ModState :=
  if ¬ hasRole s.roles Role.ADMIN caller then
    .error (.missingRole Role.ADMIN caller)
  else if ¬ s.paused then .error .notPausedGuard
  else .ok { s with paused := false }

/-- `addModerator`: `onlyRole(ADMIN_ROLE)` then `grantRole`, which itself
requires the caller to hold the admin role of `MODERATOR_ROLE`
(`DEFAULT_ADMIN_ROLE`). -/
def addModerator (s : ModState) (caller account : String) :
    Except Err ModState :=
  if ¬ hasRole s.roles Role.ADMIN caller then
    .error (.missingRole Role.ADMIN caller)
  else if ¬ hasRole s.roles Role.DEFAULT_ADMIN caller then
    .error (.missingRole Role.DEFAULT_ADMIN caller)
  else .ok { s with roles := grantRoleTo s.roles Role.MODERATOR account }

/-- `removeModerator`: `onlyRole(ADMIN_ROLE)` then `revokeRole`. -/
def removeModerator (s : ModState) (caller account : String) :
    Except Err ModState :=
  if ¬ hasRole s.roles Role.ADMIN caller then
    .error (.missingRole Role.ADMIN caller)
  else if ¬ hasRole s.roles Role.DEFAULT_ADMIN caller then
    .error (.missingRole Role.DEFAULT_ADMIN caller)
  else .ok { s with roles := revokeRoleFrom s.roles Role.MODERATOR account }

/-- One external transaction against the `Moderation` contract. -/
inductive ModAction
  | add (caller : String) (ts : Nat) (contentId contentHash : String)
      (isFlagged : Bool) (categories : List String) (confidenceScore : Nat)
      (reason : String)
  | overrule (caller : String) (recordId : Nat) (reason : String)
  | doPause (caller : String)
  | doUnpause (caller : String)
  | addMod (caller account : String)
  | removeMod (caller account : String)

/-- Transaction dispatch for the `Moderation` contract. -/
def modStep (s : ModState) : ModAction → Except Err ModState
  | .add c ts cid ch fl cats score reason =>
    (addModerationRecord s c ts cid ch fl cats score reason).map Prod.snd
  | .overrule c rid reason => overruleModeration s c rid reason
  | .doPause c => pause s c
  | .doUnpause c => unpause s c
  | .addMod c a => addModerator s c a
  | .removeMod c a => removeModerator s c a

end Moderation

namespace Governance

/-- The `Vote` enum of the `Governance` contract. -/
inductive Vote
  | None
  | For
  | Against
deriving DecidableEq, Repr

/-- The `Proposal` struct (its `mapping(address => Vote) votes` member is
an association list whose absent keys denote `Vote.None`). -/
structure Proposal where
  id : Nat
  title : String
  description : String
  proposer : String
  startTime : Nat
  endTime : Nat
  forVotes : Nat
  againstVotes : Nat
  executed : Bool
  passed : Bool
  votes : List (String × Vote)
deriving DecidableEq, Repr

/-- Reads a voter's recorded choice from a proposal's `votes` mapping. -/
def voteOf (p : Proposal) (a : String) : Vote :=
  (p.votes.lookup a).getD Vote.None

/-- Storage of the `Governance` contract.  The source keeps a counter
`proposalCount` alongside `mapping(uint256 => Proposal) proposals`; since
ids are assigned sequentially from `0` and the counter always equals the
number of created proposals, the pair is represented by the list
`proposals` with `proposalCount = proposals.length`. -/
structure GovState where
  roles : List (Role × String)
  paused : Bool
  proposals : List Proposal
  votingPeriod : Nat
  executionDelay : Nat
  quorum : Nat
deriving DecidableEq, Repr

/-- `getProposalCount`. -/
def getProposalCount (s : GovState) : Nat :=
  s.proposals.length

/-- The constructor: deployer receives `DEFAULT_ADMIN_ROLE`, `ADMIN_ROLE`
and `PROPOSER_ROLE`; the config defaults are `3 days`, `1 day` and
`100 * 10 ^ 18`. -/
def initState (deployer : String) : GovState :=
  { roles := [(Role.DEFAULT_ADMIN, deployer), (Role.ADMIN, deployer),
              (Role.PROPOSER, deployer)]
    paused := false
    proposals := []
    votingPeriod := 3 * 86400
    executionDelay := 86400
    quorum := 100 * 10 ^ 18 }

/-- `createProposal`: guarded by `onlyRole(PROPOSER_ROLE)` then
`whenNotPaused`, then non-empty title/description; assigns the next
sequential id (`proposalCount++`, checked) and stores a proposal with
`startTime = block.timestamp` and `endTime = block.timestamp +
votingPeriod` (checked). -/
def createProposal (s : GovState) (caller : String) (ts : Nat)
    (title description : String) : Except Err (Nat × GovState) :=
  if ¬ hasRole s.roles Role.PROPOSER caller then
    .error (.missingRole Role.PROPOSER caller)
  else if s.paused then .error .pausedGuard
  else if title = "" then .error (.reverted "Title cannot be empty")
  else if description = "" then .error (.reverted "Description cannot be empty")
  else
    match uaddCheck s.proposals.length 1 with
    | .error e => .error e
    | .ok _ =>
      match uaddCheck ts s.votingPeriod with
      | .error e => .error e
      | .ok endT =>
        let proposalId := s.proposals.length
        let newProposal : Proposal :=
          { id := proposalId
            title := title
            description := description
            proposer := caller
            startTime := ts
            endTime := endT
            forVotes := 0
            againstVotes := 0
            executed := false
            passed := false
            votes := [] }
        .ok (proposalId, { s with proposals := s.proposals ++ [newProposal] })

/-- `castVote`: guarded by `whenNotPaused`, then the four `require`s in
source order (existence, `block.timestamp <= endTime`, no prior vote,
positive token balance); records the choice and accumulates the weight
(checked addition) into the matching tally.  The governance token's
`balanceOf` is the external environment, passed as a function. -/
def castVote (s : GovState) (caller : String) (ts : Nat)
    (balanceOf : String → Nat) (proposalId : Nat) (support : Bool) :
    Except Err GovState :=
  if s.paused then .error .pausedGuard
  else
    match s.proposals[proposalId]? with
    | none => .error (.reverted "Proposal does not exist")
    | some p =>
      if ¬ (ts ≤ p.endTime) then .error (.reverted "Voting has ended")
      else if ¬ (voteOf p caller = Vote.None) then
        .error (.reverted "Already voted")
      else
        let weight := balanceOf caller
        if ¬ (0 < weight) then .error (.reverted "No voting power")
        else
          let voteType := if support then Vote.For else Vote.Against
          match (if support then uaddCheck p.forVotes weight
                 else uaddCheck p.againstVotes weight) with
          | .error e => .error e
          | .ok tally =>
            let p2 :=
              if support then
                { p with votes := setAssoc p.votes caller voteType
                         forVotes := tally }
              else
                { p with votes := setAssoc p.votes caller voteType
                         againstVotes := tally }
            .ok { s with proposals := s.proposals.set proposalId p2 }

/-- `executeProposal`: guarded by `whenNotPaused`, then the `require`s in
source order (existence, `block.timestamp > endTime`, not yet executed,
quorum on the checked sum of the tallies); freezes `executed = true` and
`passed = forVotes > againstVotes`. -/
def executeProposal (s : GovState) (ts : Nat) (proposalId : Nat) :
    Except Err GovState :=
  if s.paused then .error .pausedGuard
  else
    match s.proposals[proposalId]? with
    | none => .error (.reverted "Proposal does not exist")
    | some p =>
      if ¬ (p.endTime < ts) then .error (.reverted "Voting has not ended")
      else if p.executed then .error (.reverted "Already executed")
      else
        match uaddCheck p.forVotes p.againstVotes with
        | .error e => .error e
        | .ok totalVotes =>
          if ¬ (s.quorum ≤ totalVotes) then
            .error (.reverted "Quorum not reached")
          else
            let passed := decide (p.againstVotes < p.forVotes)
            .ok { s with
              proposals :=
                s.proposals.set proposalId
                  { p with executed := true, passed := passed } }

/-- `getProposal`: reverts on an unknown id, else returns the stored
proposal (the source returns its scalar fields; the `votes` mapping is
not part of the returned view). -/
def getProposal (s : GovState) (proposalId : Nat) : Except Err Proposal :=
  match s.proposals[proposalId]? with
  | none => .error (.reverted "Proposal does not exist")
  | some p => .ok p

/-- `getVoteStatus`: reverts on an unknown id, else reads the voter's
recorded choice. -/
def getVoteStatus (s : GovState) (proposalId : Nat) (voter : String) :
    Except Err Vote :=
  match s.proposals[proposalId]? with
  | none => .error (.reverted "Proposal does not exist")
  | some p => .ok (voteOf p voter)

/-- `setVotingPeriod`: `onlyRole(ADMIN_ROLE)` and a positivity
`require`. -/
def setVotingPeriod (s : GovState) (caller : String) (v : Nat) :
    Except Err GovState :=
  if ¬ hasRole s.roles Role.ADMIN caller then
    .error (.missingRole Role.ADMIN caller)
  else if ¬ (0 < v) then .error (.reverted "Voting period must be positive")
  else .ok { s with votingPeriod := v }

/-- `setExecutionDelay`: `onlyRole(ADMIN_ROLE)` only — the source has no
positivity `require` on this setter. -/
def setExecutionDelay (s : GovState) (caller : String) (v : Nat) :
    Except Err GovState :=
  if ¬ hasRole s.roles Role.ADMIN caller then
    .error (.missingRole Role.ADMIN caller)
  else .ok { s with executionDelay := v }

/-- `setQuorum`: `onlyRole(ADMIN_ROLE)` and a positivity `require`. -/
def setQuorum (s : GovState) (caller : String) (v : Nat) :
    Except Err GovState :=
  if ¬ hasRole s.roles Role.ADMIN caller then
    .error (.missingRole Role.ADMIN caller)
  else if ¬ (0 < v) then .error (.reverted "Quorum must be positive")
  else .ok { s with quorum := v }

/-- `pause`. -/
def pause (s : GovState) (caller : String) : Except Err GovState :=
  if ¬ hasRole s.roles Role.ADMIN caller then
    .error (.missingRole Role.ADMIN caller)
  else if s.paused then .error .pausedGuard
  else .ok { s with paused := true }

/-- `unpause`. -/
def unpause (s : GovState) (caller : String) : Except Err GovState :=
  if ¬ hasRole s.roles Role.ADMIN caller then
    .error (.missingRole Role.ADMIN caller)
  else if ¬ s.paused then .error .notPausedGuard
  else .ok { s with paused := false }

/-- `addProposer`: `onlyRole(ADMIN_ROLE)` then `grantRole` (which itself
requires `DEFAULT_ADMIN_ROLE`). -/
def addProposer (s : GovState) (caller account : String) :
    Except Err GovState :=
  if ¬ hasRole s.roles Role.ADMIN caller then
    .error (.missingRole Role.ADMIN caller)
  else if ¬ hasRole s.roles Role.DEFAULT_ADMIN caller then
    .error (.missingRole Role.DEFAULT_ADMIN caller)
  else .ok { s with roles := grantRoleTo s.roles Role.PROPOSER account }

/-- `removeProposer`: `onlyRole(ADMIN_ROLE)` then `revokeRole`. -/
def removeProposer (s : GovState) (caller account : String) :
    Except Err GovState :=
  if ¬ hasRole s.roles Role.ADMIN caller then
    .error (.missingRole Role.ADMIN caller)
  else if ¬ hasRole s.roles Role.DEFAULT_ADMIN caller then
    .error (.missingRole Role.DEFAULT_ADMIN caller)
  else .ok { s with roles := revokeRoleFrom s.roles Role.PROPOSER account }

/-- One external transaction against the `Governance` contract. -/
inductive GovAction
  | create (caller : String) (ts : Nat) (title description : String)
  | vote (caller : String) (ts : Nat) (balanceOf : String → Nat)
      (proposalId : Nat) (support : Bool)
  | execute (ts : Nat) (proposalId : Nat)
  | setVP (caller : String) (v : Nat)
  | setED (caller : String) (v : Nat)
  | setQ (caller : String) (v : Nat)
  | doPause (caller : String)
  | doUnpause (caller : String)
  | addProp (caller account : String)
  | removeProp (caller account : String)

/-- Transaction dispatch for the `Governance` contract. -/
def govStep (s : GovState) : GovAction → Except Err GovState
  | .create c ts t d => (createProposal s c ts t d).map Prod.snd
  | .vote c ts bal pid sup => castVote s c ts bal pid sup
  | .execute ts pid => executeProposal s ts pid
  | .setVP c v => setVotingPeriod s c v
  | .setED c v => setExecutionDelay s c v
  | .setQ c v => setQuorum s c v
  | .doPause c => pause s c
  | .doUnpause c => unpause s c
  | .addProp c a => addProposer s c a
  | .removeProp c a => removeProposer s c a

end Governance

namespace DAO

/-- JS `String.prototype.toLowerCase` (ASCII range, which covers every
status and framework name the adapter handles): lowercases each
character. -/
def jsToLower (s : String) : String :=
  ⟨s.data.map Char.toLower⟩

/-- A raw proposal status as it reaches `DAOService._mapStatus`: either a
JS number (integer) or a JS string. -/
inductive RawStatus
  | num (n : Int)
  | str (s : String)
deriving DecidableEq, Repr

/-- The per-framework ordered status vocabularies of the `statusMaps`
object in `_mapStatus`; `none` for a `daoType` key absent from the
object (the lookup is on the raw `daoType`, without lowercasing). -/
def statusVocab (daoType : String) : Option (List String) :=
  if daoType = "compound" then
    some ["pending", "active", "canceled", "defeated", "succeeded",
          "queued", "expired", "executed"]
  else if daoType = "aragon" then
    some ["pending", "active", "canceled", "passed", "rejected"]
  else if daoType = "openzeppelin" then
    some ["pending", "active", "canceled", "defeated", "succeeded",
          "queued", "expired", "executed"]
  else if daoType = "moloch" then
    some ["sponsored", "submitted", "processed", "cancelled", "passed",
          "failed"]
  else none

/-- The vocabulary `_mapStatus` actually uses: the variant's own list, or
`statusMaps.compound` as the fallback (`statusMaps[this.daoType] ||
statusMaps.compound`). -/
def usedVocab (daoType : String) : List String :=
  (statusVocab daoType).getD
    ["pending", "active", "canceled", "defeated", "succeeded", "queued",
     "expired", "executed"]

/-- `DAOService._mapStatus`: a numeric code indexes the vocabulary, with
any falsy result of `statusMap[status]` (out-of-range index, hence
`undefined`) replaced by `"unknown"` via `||`; a string code is returned
lowercased, with no vocabulary lookup at all. -/
def mapStatus (daoType : String) (status : RawStatus) : String :=
  let statusMap := usedVocab daoType
  match status with
  | .num n =>
    match (if 0 ≤ n then statusMap[n.toNat]? else none) with
    | some v => if v = "" then "unknown" else v
    | none => "unknown"
  | .str s => jsToLower s

/-- The bound backend of a `DAOService` instance as `getVotingPower`
consults it: each field is the outcome of the corresponding
`blockchain.callMethod` call (an `Except` models a rejected promise).
For `moloch`, `.ok none` is a falsy `members(address)` result and
`.ok (some shares)` a member record with its `shares`; `custom` is
`none` when `customInterfaces.getVotingPower` is not configured. -/
structure Backend where
  getCurrentVotes : String → Except String String
  getVotes : String → Except String String
  balanceOf : String → Except String String
  members : String → Except String (Option String)
  custom : Option (String → Except String String)

/-- JS truthiness on an optional address: `undefined`/absent and the
empty string are falsy. -/
def truthyAddr (o : Option String) : Option String :=
  match o with
  | none => none
  | some a => if a = "" then none else some a

/-- `account || this.blockchain.currentAccount`, then the
`if (!userAddress)` guard: the resolved principal, or `none` when none is
resolvable. -/
def resolveAccount (account currentAccount : Option String) : Option String :=
  match truthyAddr account with
  | some a => some a
  | none => truthyAddr currentAccount

/-- `DAOService.getVotingPower`: throws `"No account specified"` when no
principal resolves; otherwise dispatches on the lowercased `daoType`
(`compound`/`openzeppelin`/`aragon`/`moloch`/`custom`, any other type
leaving the initial `'0'`), converts long values from wei, and rethrows
backend errors (the `catch` logs and performs `throw error`).  `fromWei`
stands for `web3.utils.fromWei`, an external library function. -/
def getVotingPower (b : Backend) (fromWei : String → String)
    (daoType : String) (currentAccount account : Option String) :
    Except String String :=
  match resolveAccount account currentAccount with
  | none => .error "No account specified"
  | some userAddress =>
    let raw : Except String String :=
      if jsToLower daoType = "compound" then b.getCurrentVotes userAddress
      else if jsToLower daoType = "openzeppelin" then b.getVotes userAddress
      else if jsToLower daoType = "aragon" then b.balanceOf userAddress
      else if jsToLower daoType = "moloch" then
        match b.members userAddress with
        | .error e => .error e
        | .ok member => .ok ((member).getD "0")
      else if jsToLower daoType = "custom" then
        match b.custom with
        | some f => f userAddress
        | none => .ok "0"
      else .ok "0"
    match raw with
    | .error e => .error e
    | .ok votingPower =>
      .ok (if 10 < votingPower.length then fromWei votingPower else votingPower)

end DAO

/-! ## Helper lemmas -/

theorem getElem?_append_lt {α : Type} (l m : List α) (i : Nat)
    (h : i < l.length) : (l ++ m)[i]? = l[i]? := by
  rw [List.getElem?_append]
  simp [h]

namespace Moderation

theorem overrule_ok_iff (s : ModState) (caller : String) (rid : Nat)
    (reason : String) :
    isSuccess (overruleModeration s caller rid reason) = true ↔
      hasRole s.roles Role.ADMIN caller = true ∧ s.paused = false ∧
      ∃ r, s.moderationRecords[rid]? = some r ∧ r.isOverruled = false ∧
        reason ≠ "" := by
  by_cases h1 : hasRole s.roles Role.ADMIN caller
  · by_cases h2 : s.paused
    · simp [overruleModeration, h1, h2, isSuccess]
    · rcases h3 : s.moderationRecords[rid]? with _ | r
      · simp [overruleModeration, h1, h2, h3, isSuccess]
      · by_cases h4 : r.isOverruled
        · simp [overruleModeration, h1, h2, h3, h4, isSuccess]
        · by_cases h5 : reason = ""
          · simp [overruleModeration, h1, h2, h3, h4, h5, isSuccess]
          · simp [overruleModeration, h1, h2, h3, h4, h5, isSuccess]
  · simp [overruleModeration, h1, isSuccess]

theorem overrule_fails_of_overruled (s : ModState) (caller : String)
    (rid : Nat) (reason : String) (r : ModerationRecord)
    (hr : s.moderationRecords[rid]? = some r) (hov : r.isOverruled = true) :
    isSuccess (overruleModeration s caller rid reason) = false := by
  by_cases h1 : hasRole s.roles Role.ADMIN caller
  · by_cases h2 : s.paused
    · simp [overruleModeration, h1, h2, isSuccess]
    · simp [overruleModeration, h1, h2, hr, hov, isSuccess]
  · simp [overruleModeration, h1, isSuccess]

theorem overrule_ok_effect (s : ModState) (caller : String) (rid : Nat)
    (reason : String) (s2 : ModState) (r : ModerationRecord)
    (hok : overruleModeration s caller rid reason = .ok s2)
    (hr : s.moderationRecords[rid]? = some r) :
    s2 = { s with
      moderationRecords :=
        s.moderationRecords.set rid
          { r with isOverruled := true, reason := reason } } := by
  by_cases h1 : hasRole s.roles Role.ADMIN caller
  · by_cases h2 : s.paused
    · simp [overruleModeration, h1, h2] at hok
    · by_cases h4 : r.isOverruled
      · simp [overruleModeration, h1, h2, hr, h4] at hok
      · by_cases h5 : reason = ""
        · simp [overruleModeration, h1, h2, hr, h4, h5] at hok
        · simp [overruleModeration, h1, h2, hr, h4, h5] at hok
          have hp : s.paused = false := by simpa using h2
          rw [hp]
          exact hok.symm
  · simp [overruleModeration, h1] at hok

theorem modStep_preserves_overruled (s : ModState) (a : ModAction)
    (s2 : ModState) (rid : Nat) (r : ModerationRecord)
    (hstep : modStep s a = .ok s2)
    (hr : s.moderationRecords[rid]? = some r) (hov : r.isOverruled = true) :
    ∃ r2, s2.moderationRecords[rid]? = some r2 ∧ r2.isOverruled = true := by
  have hlt : rid < s.moderationRecords.length := by
    by_contra hge
    rw [List.getElem?_eq_none (by omega)] at hr
    exact Option.noConfusion hr
  cases a with
  | add c ts cid ch fl cats score reason =>
    simp only [modStep, addModerationRecord] at hstep
    split_ifs at hstep with g1 g2 g3 g4 g5
    all_goals simp [Except.map] at hstep
    refine ⟨r, ?_, hov⟩
    rw [← hstep]
    simpa using (getElem?_append_lt s.moderationRecords _ rid hlt).trans hr
  | overrule c rid2 reason =>
    simp only [modStep] at hstep
    rcases h3 : s.moderationRecords[rid2]? with _ | rr
    · simp [overruleModeration, h3] at hstep
      split_ifs at hstep
    · have heff := overrule_ok_effect s c rid2 reason s2 rr hstep h3
      by_cases he : rid2 = rid
      · subst he
        rw [h3] at hr
        injection hr with heq
        subst heq
        refine ⟨{ rr with isOverruled := true, reason := reason }, ?_, rfl⟩
        rw [heff]
        simpa using List.getElem?_set_self (by simpa using hlt)
      · refine ⟨r, ?_, hov⟩
        rw [heff]
        simpa using (List.getElem?_set_ne (a := _) he).trans hr
  | doPause c =>
    simp only [modStep, pause] at hstep
    split_ifs at hstep
    cases hstep
    exact ⟨r, hr, hov⟩
  | doUnpause c =>
    simp only [modStep, unpause] at hstep
    split_ifs at hstep
    cases hstep
    exact ⟨r, hr, hov⟩
  | addMod c acc =>
    simp only [modStep, addModerator] at hstep
    split_ifs at hstep
    cases hstep
    exact ⟨r, hr, hov⟩
  | removeMod c acc =>
    simp only [modStep, removeModerator] at hstep
    split_ifs at hstep
    cases hstep
    exact ⟨r, hr, hov⟩

theorem addRecord_ok_iff (s : ModState) (caller : String) (ts : Nat)
    (cid ch : String) (fl : Bool) (cats : List String) (score : Nat)
    (reason : String) :
    isSuccess (addModerationRecord s caller ts cid ch fl cats score reason)
        = true ↔
      hasRole s.roles Role.MODERATOR caller = true ∧ s.paused = false ∧
      cid ≠ "" ∧ ch ≠ "" ∧ score ≤ 1000 := by
  by_cases h1 : hasRole s.roles Role.MODERATOR caller
  · by_cases h2 : s.paused
    · simp [addModerationRecord, h1, h2, isSuccess]
    · by_cases h3 : cid = ""
      · simp [addModerationRecord, h1, h2, h3, isSuccess]
      · by_cases h4 : ch = ""
        · simp [addModerationRecord, h1, h2, h3, h4, isSuccess]
        · by_cases h5 : score ≤ 1000
          · simp [addModerationRecord, h1, h2, h3, h4, h5, isSuccess]
          · simp [addModerationRecord, h1, h2, h3, h4, h5, isSuccess]
  · simp [addModerationRecord, h1, isSuccess]

theorem addRecord_ok_parts (s : ModState) (caller : String) (ts : Nat)
    (cid ch : String) (fl : Bool) (cats : List String) (score : Nat)
    (reason : String) (rid : Nat) (s2 : ModState)
    (hok : addModerationRecord s caller ts cid ch fl cats score reason
      = .ok (rid, s2)) :
    rid = s.moderationRecords.length ∧
    s2.moderationRecords = s.moderationRecords ++
      [{ contentId := cid, contentHash := ch, isFlagged := fl,
         categories := cats, confidenceScore := score, moderator := caller,
         timestamp := ts, isOverruled := false, reason := reason }] ∧
    s2.contentToRecords = setAssoc s.contentToRecords cid
      (((s.contentToRecords.lookup cid).getD []) ++ [rid]) ∧
    s2.roles = s.roles ∧ s2.paused = s.paused := by
  simp only [addModerationRecord] at hok
  split_ifs at hok with h1 h2 h3 h4 h5
  rw [Except.ok.injEq, Prod.mk.injEq] at hok
  obtain ⟨h6, h7⟩ := hok
  subst h6
  rw [← h7]
  have hp : s.paused = false := by simpa using h2
  simp [hp]

/-- C4: `overrule` succeeds exactly when the caller has Admin, the system
is not paused, the record exists and is not yet overruled, and the reason
is non-empty; on success it sets `isOverruled := true` and replaces
`reason`, touching no other field, record, or piece of storage; once a
record is overruled this is preserved by every further transaction, and
any later `overrule` of the same id fails (reverting, hence changing
nothing) regardless of caller or reason. -/
theorem claimC4_overrule_one_shot (s : Moderation.ModState) (caller : String)
    (rid : Nat) (reason : String) :
    (isSuccess (overruleModeration s caller rid reason) = true ↔
      hasRole s.roles Role.ADMIN caller = true ∧ s.paused = false ∧
      ∃ r, s.moderationRecords[rid]? = some r ∧ r.isOverruled = false ∧
        reason ≠ "") ∧
    (∀ s2 r, overruleModeration s caller rid reason = .ok s2 →
      s.moderationRecords[rid]? = some r →
      s2.moderationRecords[rid]? =
        some { r with isOverruled := true, reason := reason } ∧
      (∀ j, j ≠ rid → s2.moderationRecords[j]? = s.moderationRecords[j]?) ∧
      s2.roles = s.roles ∧ s2.paused = s.paused ∧
      s2.contentToRecords = s.contentToRecords) ∧
    (∀ s3 caller3 reason3 r3, s3.moderationRecords[rid]? = some r3 →
      r3.isOverruled = true →
      isSuccess (overruleModeration s3 caller3 rid reason3) = false) ∧
    (∀ s3 a s4 r3, modStep s3 a = .ok s4 →
      s3.moderationRecords[rid]? = some r3 → r3.isOverruled = true →
      ∃ r4, s4.moderationRecords[rid]? = some r4 ∧ r4.isOverruled = true) := by
  refine ⟨overrule_ok_iff s caller rid reason, ?_, ?_, ?_⟩
  · intro s2 r hok hr
    have hlt : rid < s.moderationRecords.length := by
      by_contra hge
      rw [List.getElem?_eq_none (by omega)] at hr
      exact Option.noConfusion hr
    have heff := overrule_ok_effect s caller rid reason s2 r hok hr
    subst heff
    refine ⟨?_, ?_, rfl, rfl, rfl⟩
    · simpa using List.getElem?_set_self (by simpa using hlt)
    · intro j hj
      simpa using List.getElem?_set_ne (a :=
        { r with isOverruled := true, reason := reason }) (Ne.symm hj)
  · exact fun s3 caller3 reason3 r3 h1 h2 =>
      overrule_fails_of_overruled s3 caller3 rid reason3 r3 h1 h2
  · exact fun s3 a s4 r3 h1 h2 h3 =>
      modStep_preserves_overruled s3 a s4 rid r3 h1 h2 h3

/-- Witness record used in the concrete moderation scenarios. -/
def recW : ModerationRecord :=
  { contentId := "c1", contentHash := "0xabc", isFlagged := true,
    categories := ["hate_speech"], confidenceScore := 750,
    moderator := "mod", timestamp := 5, isOverruled := false,
    reason := "r1" }

/-- Witness state used in the concrete moderation scenarios: one stored
record, not paused, with an admin and a moderator. -/
def modW : ModState :=
  { roles := [(Role.ADMIN, "admin"), (Role.MODERATOR, "mod")]
    paused := false
    moderationRecords := [recW]
    contentToRecords := [("c1", [0])] }

/-- C4 witness: overruling the stored record of `modW` succeeds. -/
theorem claimC4_witness :
    isSuccess (overruleModeration modW "admin" 0 "acceptable") = true :=
  (claimC4_overrule_one_shot modW "admin" 0 "acceptable").1.mpr
    ⟨by decide, by decide, recW, by decide, by decide, by decide⟩

/-- C6: on a valid submission (Moderator caller, unpaused system,
non-empty content id and hash, confidence score at most 1000),
`addModerationRecord` succeeds, and reading back the returned id with
`getModerationRecord` yields exactly the submitted fields, with the
caller as `moderator` and `isOverruled = false`. -/
theorem claimC6_roundtrip (s : Moderation.ModState) (caller : String)
    (ts : Nat) (cid ch : String) (fl : Bool) (cats : List String)
    (score : Nat) (reason : String)
    (hrole : hasRole s.roles Role.MODERATOR caller = true)
    (hp : s.paused = false) (hcid : cid ≠ "") (hch : ch ≠ "")
    (hscore : score ≤ 1000) :
    isSuccess (addModerationRecord s caller ts cid ch fl cats score reason)
      = true ∧
    ∀ rid s2,
      addModerationRecord s caller ts cid ch fl cats score reason
        = .ok (rid, s2) →
      getModerationRecord s2 rid = .ok
        { contentId := cid, contentHash := ch, isFlagged := fl,
          categories := cats, confidenceScore := score, moderator := caller,
          timestamp := ts, isOverruled := false, reason := reason } := by
  constructor
  · exact (addRecord_ok_iff s caller ts cid ch fl cats score reason).mpr
      ⟨hrole, hp, hcid, hch, hscore⟩
  · intro rid s2 hok
    obtain ⟨hrid, hrecs, _, _, _⟩ :=
      addRecord_ok_parts s caller ts cid ch fl cats score reason rid s2 hok
    subst hrid
    simp [getModerationRecord, hrecs, List.getElem?_concat_length]

/-- C6 witness: the concrete scenario of the specification, executed on
the initial state after granting Moderator. -/
theorem claimC6_witness :
    isSuccess (addModerationRecord modW "mod" 5 "c2" "0xdef" true
      ["spam"] 900 "r2") = true :=
  (claimC6_roundtrip modW "mod" 5 "c2" "0xdef" true ["spam"] 900 "r2"
    (by decide) (by decide) (by decide) (by decide) (by decide)).1

/-- C7: a successful `addModerationRecord` returns exactly the number of
records stored before the call, grows the log by one, leaves every
previously stored record untouched, appends the new id at the end of the
inverted index entry of its `contentId` (preserving insertion order) while
leaving every other content id's entry unchanged; consequently the id
returned by a following successful call is the successor, so ids are
strictly increasing along any sequence of successful calls. -/
theorem claimC7_append_only (s : Moderation.ModState) (caller : String)
    (ts : Nat) (cid ch : String) (fl : Bool) (cats : List String)
    (score : Nat) (reason : String) (rid : Nat) (s2 : ModState)
    (hok : addModerationRecord s caller ts cid ch fl cats score reason
      = .ok (rid, s2)) :
    rid = s.moderationRecords.length ∧
    s2.moderationRecords.length = s.moderationRecords.length + 1 ∧
    (∀ j, j < s.moderationRecords.length →
      s2.moderationRecords[j]? = s.moderationRecords[j]?) ∧
    getRecordsForContent s2 cid = getRecordsForContent s cid ++ [rid] ∧
    (∀ cid2, cid2 ≠ cid →
      getRecordsForContent s2 cid2 = getRecordsForContent s cid2) ∧
    (∀ caller2 ts2 cid2 ch2 fl2 cats2 score2 reason2 rid2 s3,
      addModerationRecord s2 caller2 ts2 cid2 ch2 fl2 cats2 score2 reason2
        = .ok (rid2, s3) → rid2 = rid + 1) := by
  obtain ⟨hrid, hrecs, hidx, _, _⟩ :=
    addRecord_ok_parts s caller ts cid ch fl cats score reason rid s2 hok
  refine ⟨hrid, ?_, ?_, ?_, ?_, ?_⟩
  · simp [hrecs]
  · intro j hj
    rw [hrecs]
    exact getElem?_append_lt _ _ j hj
  · simp only [getRecordsForContent, hidx]
    rw [lookup_setAssoc_self]
    rfl
  · intro cid2 hne
    simp only [getRecordsForContent, hidx]
    rw [lookup_setAssoc_ne _ _ _ _ hne]
  · intro caller2 ts2 cid2 ch2 fl2 cats2 score2 reason2 rid2 s3 hok2
    obtain ⟨hrid2, _, _, _, _⟩ :=
      addRecord_ok_parts s2 caller2 ts2 cid2 ch2 fl2 cats2 score2 reason2
        rid2 s3 hok2
    rw [hrid2, hrecs, hrid]
    simp

/-- C7 witness: adding to `modW` returns id `1 = getTotalRecords modW`. -/
theorem claimC7_witness :
    ∃ s2, addModerationRecord modW "mod" 6 "c1" "0xddd" false [] 10 "r3"
      = .ok (1, s2) ∧ getRecordsForContent s2 "c1" = [0, 1] := by
  refine ⟨_, rfl, ?_⟩
  have h := claimC7_append_only modW "mod" 6 "c1" "0xddd" false [] 10 "r3"
    1 _ rfl
  rw [h.2.2.2.1]
  decide

/-- Runs a list of transactions from a state; a reverting transaction
leaves the state as it was (all-or-nothing commitment). -/
def runMod (s : ModState) : List ModAction → ModState
  | [] => s
  | a :: rest =>
    match modStep s a with
    | .ok s2 => runMod s2 rest
    | .error _ => runMod s rest

/-- Consistency of the inverted index: every id listed under a content id
points at a stored record carrying that content id. -/
def contentIndexOk (s : ModState) : Prop :=
  ∀ cid rid, rid ∈ getRecordsForContent s cid →
    ∃ r, s.moderationRecords[rid]? = some r ∧ r.contentId = cid

theorem initState_contentIndexOk (d : String) :
    contentIndexOk (initState d) := by
  intro cid rid h
  simp [getRecordsForContent, initState, List.lookup] at h

theorem modStep_preserves_contentIndexOk (s : ModState) (a : ModAction)
    (s2 : ModState) (hstep : modStep s a = .ok s2)
    (hinv : contentIndexOk s) : contentIndexOk s2 := by
  cases a with
  | add c ts cid0 ch fl cats score reason =>
    simp only [modStep] at hstep
    rcases hadd : addModerationRecord s c ts cid0 ch fl cats score reason
      with _ | ⟨rid0, s0⟩
    · rw [hadd] at hstep
      simp [Except.map] at hstep
    · rw [hadd] at hstep
      simp only [Except.map] at hstep
      rw [Except.ok.injEq] at hstep
      subst hstep
      obtain ⟨hrid, hrecs, hidx, _, _⟩ :=
        addRecord_ok_parts s c ts cid0 ch fl cats score reason rid0 s0 hadd
      intro cid rid hmem
      by_cases hc : cid = cid0
      · subst hc
        simp only [getRecordsForContent, hidx] at hmem
        rw [lookup_setAssoc_self] at hmem
        simp only [Option.getD_some, List.mem_append, List.mem_singleton]
          at hmem
        rcases hmem with hold | hnew
        · obtain ⟨r, hr, hcid⟩ := hinv cid rid hold
          refine ⟨r, ?_, hcid⟩
          rw [hrecs]
          have hlt : rid < s.moderationRecords.length := by
            by_contra hge
            rw [List.getElem?_eq_none (by omega)] at hr
            exact Option.noConfusion hr
          rw [getElem?_append_lt _ _ rid hlt]
          exact hr
        · subst hnew
          rw [hrid, hrecs]
          exact ⟨_, List.getElem?_concat_length _ _, rfl⟩
      · simp only [getRecordsForContent, hidx] at hmem
        rw [lookup_setAssoc_ne _ _ _ _ hc] at hmem
        obtain ⟨r, hr, hcid⟩ := hinv cid rid hmem
        refine ⟨r, ?_, hcid⟩
        rw [hrecs]
        have hlt : rid < s.moderationRecords.length := by
          by_contra hge
          rw [List.getElem?_eq_none (by omega)] at hr
          exact Option.noConfusion hr
        rw [getElem?_append_lt _ _ rid hlt]
        exact hr
  | overrule c rid2 reason =>
    simp only [modStep] at hstep
    rcases h3 : s.moderationRecords[rid2]? with _ | rr
    · simp [overruleModeration, h3] at hstep
      split_ifs at hstep
    · have heff := overrule_ok_effect s c rid2 reason s2 rr hstep h3
      subst heff
      intro cid rid hmem
      simp only [getRecordsForContent] at hmem
      obtain ⟨r, hr, hcid⟩ := hinv cid rid hmem
      by_cases he : rid2 = rid
      · subst he
        rw [h3] at hr
        injection hr with heq
        subst heq
        have hlt : rid2 < s.moderationRecords.length := by
          by_contra hge
          rw [List.getElem?_eq_none (by omega)] at h3
          exact Option.noConfusion h3
        refine ⟨{ rr with isOverruled := true, reason := reason }, ?_, hcid⟩
        simpa using List.getElem?_set_self (by simpa using hlt)
      · refine ⟨r, ?_, hcid⟩
        simpa using (List.getElem?_set_ne (a :=
          { rr with isOverruled := true, reason := reason }) he).trans hr
  | doPause c =>
    simp only [modStep, pause] at hstep
    split_ifs at hstep
    cases hstep
    exact hinv
  | doUnpause c =>
    simp only [modStep, unpause] at hstep
    split_ifs at hstep
    cases hstep
    exact hinv
  | addMod c acc =>
    simp only [modStep, addModerator] at hstep
    split_ifs at hstep
    cases hstep
    exact hinv
  | removeMod c acc =>
    simp only [modStep, removeModerator] at hstep
    split_ifs at hstep
    cases hstep
    exact hinv

theorem runMod_contentIndexOk (s : ModState) (acts : List ModAction)
    (hinv : contentIndexOk s) : contentIndexOk (runMod s acts) := by
  induction acts generalizing s with
  | nil => exact hinv
  | cons a rest ih =>
    simp only [runMod]
    rcases h : modStep s a with _ | s2
    · exact ih s hinv
    · exact ih s2 (modStep_preserves_contentIndexOk s a s2 h hinv)

/-- C10: `getRecordsForContent` is total — it returns a list for every
state and content id, an absent index key denoting the empty list — and
in every state reachable from deployment, a content id for which no
stored record exists (in particular one never added) maps to `[]` rather
than a NotFound revert. -/
theorem claimC10_getRecordsForContent_total (deployer : String)
    (acts : List ModAction) (cid : String) :
    (∀ s3 : Moderation.ModState, s3.contentToRecords.lookup cid = none →
      getRecordsForContent s3 cid = []) ∧
    ((∀ r ∈ (runMod (initState deployer) acts).moderationRecords,
        r.contentId ≠ cid) →
      getRecordsForContent (runMod (initState deployer) acts) cid = []) := by
  constructor
  · intro s3 h
    simp [getRecordsForContent, h]
  · intro hnone
    have hinv := runMod_contentIndexOk (initState deployer) acts
      (initState_contentIndexOk deployer)
    rw [List.eq_nil_iff_forall_not_mem]
    intro rid hmem
    obtain ⟨r, hr, hcid⟩ := hinv cid rid hmem
    exact hnone r (List.getElem?_mem hr) hcid

/-- C10 witness: after one add under content id `c9`, the never-added
content id `zzz` yields the empty list. -/
theorem claimC10_witness :
    getRecordsForContent
      (runMod (initState "deployer")
        [ModAction.addMod "deployer" "mod",
         ModAction.add "mod" 7 "c9" "0x1" true [] 5 "r"]) "zzz" = [] :=
  (claimC10_getRecordsForContent_total "deployer"
    [ModAction.addMod "deployer" "mod",
     ModAction.add "mod" 7 "c9" "0x1" true [] 5 "r"] "zzz").2 (by decide)

end Moderation

namespace Governance

/-- The proposal as `castVote` rewrites it: the caller's choice recorded
and the weight accumulated into the matching tally. -/
def votedProposal (p : Proposal) (c : String) (w : Nat) (sup : Bool) :
    Proposal :=
  if sup then
    { p with votes := setAssoc p.votes c Vote.For, forVotes := p.forVotes + w }
  else
    { p with votes := setAssoc p.votes c Vote.Against
             againstVotes := p.againstVotes + w }

theorem voteOf_votedProposal_self (p : Proposal) (c : String) (w : Nat)
    (sup : Bool) :
    voteOf (votedProposal p c w sup) c
      = (if sup then Vote.For else Vote.Against) := by
  cases sup <;> simp [votedProposal, voteOf, lookup_setAssoc_self]

theorem voteOf_votedProposal_ne (p : Proposal) (c a : String) (w : Nat)
    (sup : Bool) (h : a ≠ c) :
    voteOf (votedProposal p c w sup) a = voteOf p a := by
  cases sup <;> simp [votedProposal, voteOf, lookup_setAssoc_ne _ _ _ _ h]

theorem executed_votedProposal (p : Proposal) (c : String) (w : Nat)
    (sup : Bool) : (votedProposal p c w sup).executed = p.executed := by
  cases sup <;> simp [votedProposal]

theorem createProposal_ok_effect (s : GovState) (c : String) (ts : Nat)
    (t d : String) (pid0 : Nat) (s0 : GovState)
    (hok : createProposal s c ts t d = .ok (pid0, s0)) :
    pid0 = s.proposals.length ∧
    s0 = { s with proposals := s.proposals ++
      [{ id := s.proposals.length, title := t, description := d,
         proposer := c, startTime := ts, endTime := ts + s.votingPeriod,
         forVotes := 0, againstVotes := 0, executed := false,
         passed := false, votes := [] }] } := by
  simp only [createProposal, uaddCheck] at hok
  split_ifs at hok
  simp only [Except.ok.injEq, Prod.mk.injEq] at hok
  obtain ⟨h6, h7⟩ := hok
  exact ⟨h6.symm, h7.symm⟩

theorem castVote_ok_effect (s : GovState) (caller : String) (ts : Nat)
    (bal : String → Nat) (pid : Nat) (sup : Bool) (s2 : GovState)
    (hok : castVote s caller ts bal pid sup = .ok s2) :
    s.paused = false ∧
    ∃ p, s.proposals[pid]? = some p ∧ ts ≤ p.endTime ∧
      voteOf p caller = Vote.None ∧ 0 < bal caller ∧
      s2 = { s with
        proposals :=
          s.proposals.set pid (votedProposal p caller (bal caller) sup) } := by
  by_cases h1 : s.paused
  · simp [castVote, h1] at hok
  · rcases hp : s.proposals[pid]? with _ | p
    · simp [castVote, h1, hp] at hok
    · refine ⟨by simpa using h1, p, rfl, ?_⟩
      by_cases h2 : ts ≤ p.endTime
      · by_cases h3 : voteOf p caller = Vote.None
        · by_cases h4 : 0 < bal caller
          · refine ⟨h2, h3, h4, ?_⟩
            cases sup with
            | false =>
              rcases h5 : uaddCheck p.againstVotes (bal caller) with e | tally
              · simp [castVote, h1, hp, h2, h3, h4, h5] at hok
              · obtain ⟨ht, _⟩ := uaddCheck_ok _ _ _ h5
                subst ht
                simp [castVote, h1, hp, h2, h3, h4, h5] at hok
                rw [← hok]
                simp [votedProposal]
                simpa using h1
            | true =>
              rcases h5 : uaddCheck p.forVotes (bal caller) with e | tally
              · simp [castVote, h1, hp, h2, h3, h4, h5] at hok
              · obtain ⟨ht, _⟩ := uaddCheck_ok _ _ _ h5
                subst ht
                simp [castVote, h1, hp, h2, h3, h4, h5] at hok
                rw [← hok]
                simp [votedProposal]
                simpa using h1
          · simp [castVote, h1, hp, h2, h3, h4] at hok
        · simp [castVote, h1, hp, h2, h3] at hok
      · simp [castVote, h1, hp, h2] at hok

theorem castVote_fails_of_voted (s : GovState) (caller : String) (ts : Nat)
    (bal : String → Nat) (pid : Nat) (sup : Bool) (p : Proposal)
    (hp : s.proposals[pid]? = some p) (hv : voteOf p caller ≠ Vote.None) :
    isSuccess (castVote s caller ts bal pid sup) = false := by
  by_cases h1 : s.paused
  · simp [castVote, h1, isSuccess]
  · by_cases h2 : ts ≤ p.endTime
    · simp [castVote, h1, hp, h2, hv, isSuccess]
    · simp [castVote, h1, hp, h2, isSuccess]

theorem executeProposal_ok_effect (s : GovState) (ts : Nat) (pid : Nat)
    (s2 : GovState) (hok : executeProposal s ts pid = .ok s2) :
    s.paused = false ∧
    ∃ p, s.proposals[pid]? = some p ∧ p.endTime < ts ∧ p.executed = false ∧
      p.forVotes + p.againstVotes < 2 ^ 256 ∧
      s.quorum ≤ p.forVotes + p.againstVotes ∧
      s2 = { s with
        proposals := s.proposals.set pid
          { p with executed := true
                   passed := decide (p.againstVotes < p.forVotes) } } := by
  by_cases h1 : s.paused
  · simp [executeProposal, h1] at hok
  · rcases hp : s.proposals[pid]? with _ | p
    · simp [executeProposal, h1, hp] at hok
    · refine ⟨by simpa using h1, p, rfl, ?_⟩
      by_cases h2 : p.endTime < ts
      · by_cases h3 : p.executed
        · simp [executeProposal, h1, hp, h2, h3] at hok
        · rcases h4 : uaddCheck p.forVotes p.againstVotes with e | total
          · simp [executeProposal, h1, hp, h2, h3, h4] at hok
          · obtain ⟨ht, hlt⟩ := uaddCheck_ok _ _ _ h4
            subst ht
            by_cases h5 : p.forVotes + p.againstVotes < s.quorum
            · simp [executeProposal, h1, hp, h2, h3, h4, h5] at hok
            · simp [executeProposal, h1, hp, h2, h3, h4, h5] at hok
              have hp0 : s.paused = false := by simpa using h1
              rw [hp0]
              exact ⟨h2, by simpa using h3, hlt, by omega, hok.symm⟩
      · simp [executeProposal, h1, hp, h2] at hok

theorem executeProposal_ok_iff (s : GovState) (ts : Nat) (pid : Nat)
    (hnp : s.paused = false)
    (hov : ∀ p, s.proposals[pid]? = some p →
      p.forVotes + p.againstVotes < 2 ^ 256) :
    isSuccess (executeProposal s ts pid) = true ↔
      ∃ p, s.proposals[pid]? = some p ∧ p.executed = false ∧
        p.endTime < ts ∧ s.quorum ≤ p.forVotes + p.againstVotes := by
  constructor
  · intro h
    obtain ⟨s2, hok⟩ := isSuccess_ok _ h
    obtain ⟨_, p, hp, h2, h3, _, h5, _⟩ :=
      executeProposal_ok_effect s ts pid s2 hok
    exact ⟨p, hp, h3, h2, h5⟩
  · rintro ⟨p, hp, hex, htime, hq⟩
    have h4 := hov p hp
    have hu := uaddCheck_eq_ok p.forVotes p.againstVotes h4
    have hq2 : ¬ (p.forVotes + p.againstVotes < s.quorum) := Nat.not_lt.mpr hq
    simp [executeProposal, hnp, hp, htime, hex, hu, hq2, isSuccess]

theorem executeProposal_fails_of_executed (s : GovState) (ts : Nat)
    (pid : Nat) (p : Proposal) (hp : s.proposals[pid]? = some p)
    (hex : p.executed = true) :
    isSuccess (executeProposal s ts pid) = false := by
  by_cases h1 : s.paused
  · simp [executeProposal, h1, isSuccess]
  · by_cases h2 : p.endTime < ts
    · simp [executeProposal, h1, hp, h2, hex, isSuccess]
    · simp [executeProposal, h1, hp, h2, isSuccess]

theorem getElem?_isSome_lt {α : Type} (l : List α) (i : Nat) (a : α)
    (h : l[i]? = some a) : i < l.length := by
  by_contra hge
  rw [List.getElem?_eq_none (by omega)] at h
  exact Option.noConfusion h

theorem govStep_preserves_executed (s : GovState) (a : GovAction)
    (s2 : GovState) (pid : Nat) (p : Proposal)
    (hstep : govStep s a = .ok s2) (hp : s.proposals[pid]? = some p)
    (hex : p.executed = true) :
    ∃ p2, s2.proposals[pid]? = some p2 ∧ p2.executed = true := by
  have hlt : pid < s.proposals.length := getElem?_isSome_lt _ _ _ hp
  cases a with
  | create c ts t d =>
    simp only [govStep] at hstep
    rcases hc : createProposal s c ts t d with e | pr
    · rw [hc] at hstep
      simp [Except.map] at hstep
    · obtain ⟨pid0, s0⟩ := pr
      rw [hc] at hstep
      simp only [Except.map] at hstep
      rw [Except.ok.injEq] at hstep
      subst hstep
      obtain ⟨_, heff⟩ := createProposal_ok_effect s c ts t d pid0 s0 hc
      subst heff
      exact ⟨p, by rw [show ({ s with proposals := s.proposals ++ _ } :
        GovState).proposals = s.proposals ++ _ from rfl,
        getElem?_append_lt _ _ pid hlt]; exact hp, hex⟩
  | vote c ts bal pid2 sup =>
    simp only [govStep] at hstep
    obtain ⟨_, q, hq, _, _, _, heff⟩ :=
      castVote_ok_effect s c ts bal pid2 sup s2 hstep
    subst heff
    by_cases he : pid2 = pid
    · subst he
      rw [hq] at hp
      injection hp with heq
      subst heq
      refine ⟨votedProposal q c (bal c) sup, ?_, ?_⟩
      · simpa using List.getElem?_set_self (by simpa using hlt)
      · rw [executed_votedProposal]
        exact hex
    · exact ⟨p, by simpa using (List.getElem?_set_ne
        (a := votedProposal q c (bal c) sup) he).trans hp, hex⟩
  | execute ts pid2 =>
    simp only [govStep] at hstep
    obtain ⟨_, q, hq, _, _, _, _, heff⟩ :=
      executeProposal_ok_effect s ts pid2 s2 hstep
    subst heff
    by_cases he : pid2 = pid
    · subst he
      refine ⟨{ q with executed := true, passed := decide (q.againstVotes < q.forVotes) }, ?_, rfl⟩
      simpa using List.getElem?_set_self
        (by simpa using getElem?_isSome_lt _ _ _ hq)
    · have hne := List.getElem?_set_ne (l := s.proposals)
        (a := { q with executed := true, passed := decide (q.againstVotes < q.forVotes) }) he
      exact ⟨p, by simpa using hne.trans hp, hex⟩
  | setVP c v =>
    simp only [govStep, setVotingPeriod] at hstep
    split_ifs at hstep
    cases hstep
    exact ⟨p, hp, hex⟩
  | setED c v =>
    simp only [govStep, setExecutionDelay] at hstep
    split_ifs at hstep
    cases hstep
    exact ⟨p, hp, hex⟩
  | setQ c v =>
    simp only [govStep, setQuorum] at hstep
    split_ifs at hstep
    cases hstep
    exact ⟨p, hp, hex⟩
  | doPause c =>
    simp only [govStep, pause] at hstep
    split_ifs at hstep
    cases hstep
    exact ⟨p, hp, hex⟩
  | doUnpause c =>
    simp only [govStep, unpause] at hstep
    split_ifs at hstep
    cases hstep
    exact ⟨p, hp, hex⟩
  | addProp c acc =>
    simp only [govStep, addProposer] at hstep
    split_ifs at hstep
    cases hstep
    exact ⟨p, hp, hex⟩
  | removeProp c acc =>
    simp only [govStep, removeProposer] at hstep
    split_ifs at hstep
    cases hstep
    exact ⟨p, hp, hex⟩

theorem govStep_preserves_voted (s : GovState) (a : GovAction)
    (s2 : GovState) (pid : Nat) (voter : String) (p : Proposal)
    (hstep : govStep s a = .ok s2) (hp : s.proposals[pid]? = some p)
    (hv : voteOf p voter ≠ Vote.None) :
    ∃ p2, s2.proposals[pid]? = some p2 ∧ voteOf p2 voter ≠ Vote.None := by
  have hlt : pid < s.proposals.length := getElem?_isSome_lt _ _ _ hp
  cases a with
  | create c ts t d =>
    simp only [govStep] at hstep
    rcases hc : createProposal s c ts t d with e | pr
    · rw [hc] at hstep
      simp [Except.map] at hstep
    · obtain ⟨pid0, s0⟩ := pr
      rw [hc] at hstep
      simp only [Except.map] at hstep
      rw [Except.ok.injEq] at hstep
      subst hstep
      obtain ⟨_, heff⟩ := createProposal_ok_effect s c ts t d pid0 s0 hc
      subst heff
      exact ⟨p, by rw [show ({ s with proposals := s.proposals ++ _ } :
        GovState).proposals = s.proposals ++ _ from rfl,
        getElem?_append_lt _ _ pid hlt]; exact hp, hv⟩
  | vote c ts bal pid2 sup =>
    simp only [govStep] at hstep
    obtain ⟨_, q, hq, _, _, _, heff⟩ :=
      castVote_ok_effect s c ts bal pid2 sup s2 hstep
    subst heff
    by_cases he : pid2 = pid
    · subst he
      rw [hq] at hp
      injection hp with heq
      subst heq
      refine ⟨votedProposal q c (bal c) sup, ?_, ?_⟩
      · simpa using List.getElem?_set_self (by simpa using hlt)
      · by_cases hvc : voter = c
        · subst hvc
          rw [voteOf_votedProposal_self]
          cases sup <;> simp
        · rw [voteOf_votedProposal_ne q c voter (bal c) sup hvc]
          exact hv
    · exact ⟨p, by simpa using (List.getElem?_set_ne
        (a := votedProposal q c (bal c) sup) he).trans hp, hv⟩
  | execute ts pid2 =>
    simp only [govStep] at hstep
    obtain ⟨_, q, hq, _, _, _, _, heff⟩ :=
      executeProposal_ok_effect s ts pid2 s2 hstep
    subst heff
    by_cases he : pid2 = pid
    · subst he
      rw [hq] at hp
      injection hp with heq
      subst heq
      refine ⟨{ q with executed := true, passed := decide (q.againstVotes < q.forVotes) }, ?_, ?_⟩
      · simpa using List.getElem?_set_self (by simpa using hlt)
      · simpa [voteOf] using hv
    · have hne := List.getElem?_set_ne (l := s.proposals)
        (a := { q with executed := true, passed := decide (q.againstVotes < q.forVotes) }) he
      exact ⟨p, by simpa using hne.trans hp, hv⟩
  | setVP c v =>
    simp only [govStep, setVotingPeriod] at hstep
    split_ifs at hstep
    cases hstep
    exact ⟨p, hp, hv⟩
  | setED c v =>
    simp only [govStep, setExecutionDelay] at hstep
    split_ifs at hstep
    cases hstep
    exact ⟨p, hp, hv⟩
  | setQ c v =>
    simp only [govStep, setQuorum] at hstep
    split_ifs at hstep
    cases hstep
    exact ⟨p, hp, hv⟩
  | doPause c =>
    simp only [govStep, pause] at hstep
    split_ifs at hstep
    cases hstep
    exact ⟨p, hp, hv⟩
  | doUnpause c =>
    simp only [govStep, unpause] at hstep
    split_ifs at hstep
    cases hstep
    exact ⟨p, hp, hv⟩
  | addProp c acc =>
    simp only [govStep, addProposer] at hstep
    split_ifs at hstep
    cases hstep
    exact ⟨p, hp, hv⟩
  | removeProp c acc =>
    simp only [govStep, removeProposer] at hstep
    split_ifs at hstep
    cases hstep
    exact ⟨p, hp, hv⟩

/-- C1: on an unpaused system (and with tallies below the `uint256`
bound, so the checked quorum sum cannot revert), `executeProposal`
succeeds exactly when the proposal exists, is not yet executed, the
current time is strictly past its `endTime`, and
`forVotes + againstVotes >= quorum`; on success only the target proposal
changes, to `executed = true` and `passed = (forVotes > againstVotes)` —
so a quorum-reaching tie yields `passed = false` — and since a revert
changes nothing and `executed = true` is preserved by every further
transaction, any second `executeProposal` on the same id always fails,
leaving the proposal unchanged. -/
theorem claimC1_executeProposal (s : Governance.GovState) (ts pid : Nat)
    (hnp : s.paused = false)
    (hov : ∀ p, s.proposals[pid]? = some p →
      p.forVotes + p.againstVotes < 2 ^ 256) :
    (isSuccess (executeProposal s ts pid) = true ↔
      ∃ p, s.proposals[pid]? = some p ∧ p.executed = false ∧
        p.endTime < ts ∧ s.quorum ≤ p.forVotes + p.againstVotes) ∧
    (∀ s2 p, executeProposal s ts pid = .ok s2 →
      s.proposals[pid]? = some p →
      s2.proposals[pid]? =
        some { p with executed := true, passed := decide (p.againstVotes < p.forVotes) } ∧
      (∀ j, j ≠ pid → s2.proposals[j]? = s.proposals[j]?) ∧
      (p.forVotes = p.againstVotes →
        ∀ p2, s2.proposals[pid]? = some p2 → p2.passed = false)) ∧
    (∀ s3 ts3 p3, s3.proposals[pid]? = some p3 → p3.executed = true →
      isSuccess (executeProposal s3 ts3 pid) = false) ∧
    (∀ s3 a s4 p3, govStep s3 a = .ok s4 → s3.proposals[pid]? = some p3 →
      p3.executed = true →
      ∃ p4, s4.proposals[pid]? = some p4 ∧ p4.executed = true) := by
  refine ⟨executeProposal_ok_iff s ts pid hnp hov, ?_, ?_, ?_⟩
  · intro s2 p hok hp
    obtain ⟨_, q, hq, _, _, _, _, heff⟩ :=
      executeProposal_ok_effect s ts pid s2 hok
    rw [hp] at hq
    injection hq with heq
    subst heq
    have hlt : pid < s.proposals.length := getElem?_isSome_lt _ _ _ hp
    have hprops : s2.proposals = s.proposals.set pid
        { p with executed := true, passed := decide (p.againstVotes < p.forVotes) } := by
      rw [heff]
    have hself : (s.proposals.set pid
        { p with executed := true, passed := decide (p.againstVotes < p.forVotes) })[pid]?
        = some { p with executed := true, passed := decide (p.againstVotes < p.forVotes) } :=
      List.getElem?_set_self hlt
    refine ⟨by rw [hprops]; exact hself, ?_, ?_⟩
    · intro j hj
      have hne := List.getElem?_set_ne (l := s.proposals)
        (a := { p with executed := true, passed := decide (p.againstVotes < p.forVotes) })
        (Ne.symm hj)
      rw [hprops]
      exact hne
    · intro htie p2 hp2
      rw [hprops, hself] at hp2
      injection hp2 with heq2
      subst heq2
      simp [htie]
  · exact fun s3 ts3 p3 h1 h2 =>
      executeProposal_fails_of_executed s3 ts3 pid p3 h1 h2
  · exact fun s3 a s4 p3 h1 h2 h3 =>
      govStep_preserves_executed s3 a s4 pid p3 h1 h2 h3

/-- Witness proposal: voting closed at time 10, 60 for, 40 against, not
yet executed. -/
def propW : Proposal :=
  { id := 0, title := "T", description := "D", proposer := "admin",
    startTime := 0, endTime := 10, forVotes := 60, againstVotes := 40,
    executed := false, passed := false,
    votes := [("alice", Vote.For), ("bob", Vote.Against)] }

/-- Witness governance state: one proposal, unpaused, quorum 100. -/
def govW : GovState :=
  { roles := [(Role.DEFAULT_ADMIN, "admin"), (Role.ADMIN, "admin"),
              (Role.PROPOSER, "admin")]
    paused := false
    proposals := [propW]
    votingPeriod := 10
    executionDelay := 5
    quorum := 100 }

/-- C1 witness: at time 11 the witness proposal executes successfully. -/
theorem claimC1_witness : isSuccess (executeProposal govW 11 0) = true :=
  (claimC1_executeProposal govW 11 0 rfl
    (by intro p hp
        rw [show govW.proposals[0]? = some propW from rfl] at hp
        injection hp with heq
        subst heq
        decide)).1.mpr
    ⟨propW, rfl, rfl, by decide, by decide⟩

/-- C3: a successful `castVote` implies the system was unpaused, the
proposal existed, voting was still open (`ts ≤ endTime`), the caller had
no recorded vote, and the caller's queried voting power was positive;
the proposal is rewritten to record the caller's choice and add that
power to the supported tally; the recorded choice is non-`None`, is
preserved by every further transaction, and any `castVote` by the same
principal on the same proposal while a non-`None` choice is recorded
always fails — so a vote is accepted at most once per principal and
proposal. -/
theorem claimC3_castVote_once (s : Governance.GovState) (caller : String)
    (ts : Nat) (bal : String → Nat) (pid : Nat) (sup : Bool)
    (s2 : GovState) (hok : castVote s caller ts bal pid sup = .ok s2) :
    s.paused = false ∧
    (∃ p, s.proposals[pid]? = some p ∧ ts ≤ p.endTime ∧
      voteOf p caller = Vote.None ∧ 0 < bal caller ∧
      s2.proposals[pid]? = some (votedProposal p caller (bal caller) sup)) ∧
    (∀ p2, s2.proposals[pid]? = some p2 → voteOf p2 caller ≠ Vote.None) ∧
    (∀ s3 ts3 bal3 sup3 p3, s3.proposals[pid]? = some p3 →
      voteOf p3 caller ≠ Vote.None →
      isSuccess (castVote s3 caller ts3 bal3 pid sup3) = false) ∧
    (∀ s3 a s4 p3, govStep s3 a = .ok s4 → s3.proposals[pid]? = some p3 →
      voteOf p3 caller ≠ Vote.None →
      ∃ p4, s4.proposals[pid]? = some p4 ∧ voteOf p4 caller ≠ Vote.None) := by
  obtain ⟨hp0, p, hp, hts, hvn, hw, heff⟩ :=
    castVote_ok_effect s caller ts bal pid sup s2 hok
  have hlt : pid < s.proposals.length := getElem?_isSome_lt _ _ _ hp
  have hprops : s2.proposals
      = s.proposals.set pid (votedProposal p caller (bal caller) sup) := by
    rw [heff]
  have hself : (s.proposals.set pid (votedProposal p caller (bal caller) sup))[pid]?
      = some (votedProposal p caller (bal caller) sup) :=
    List.getElem?_set_self hlt
  refine ⟨hp0, ⟨p, hp, hts, hvn, hw, ?_⟩, ?_, ?_, ?_⟩
  · rw [hprops]
    exact hself
  · intro p2 hp2
    rw [hprops, hself] at hp2
    injection hp2 with heq2
    subst heq2
    rw [voteOf_votedProposal_self]
    cases sup <;> simp
  · exact fun s3 ts3 bal3 sup3 p3 h1 h2 =>
      castVote_fails_of_voted s3 caller ts3 bal3 pid sup3 p3 h1 h2
  · exact fun s3 a s4 p3 h1 h2 h3 =>
      govStep_preserves_voted s3 a s4 pid caller p3 h1 h2 h3

/-- Witness state after `carol` (balance 7) voted for the witness
proposal. -/
def govW2 : GovState :=
  { govW with proposals := [votedProposal propW "carol" 7 true] }

/-- C3 witness: `carol` votes successfully at time 5; her second attempt
(from the resulting state) fails. -/
theorem claimC3_witness :
    isSuccess (castVote govW2 "carol" 6 (fun _ => 9) 0 false) = false :=
  (claimC3_castVote_once govW "carol" 5 (fun _ => 7) 0 true govW2
      rfl).2.2.2.1
    govW2 6 (fun _ => 9) false (votedProposal propW "carol" 7 true)
    (by decide) (by decide)

end Governance

/-- Witness governance state with the pause flag raised. -/
def govPausedW : Governance.GovState :=
  { Governance.govW with paused := true }

/-- Witness moderation state with the pause flag raised. -/
def modPausedW : Moderation.ModState :=
  { Moderation.modW with paused := true }

/-- C2 counterexample: with the pause flag raised, an Admin's
`setVotingPeriod` call still succeeds — the configuration setters carry
no pause guard, refuting the claim that every mutating operation fails
with `SystemPaused` while paused. -/
theorem claimC2_counterexample :
    govPausedW.paused = true ∧
    isSuccess (Governance.setVotingPeriod govPausedW "admin" 5) = true :=
  ⟨rfl, rfl⟩

/-- C2 (amended): while paused, `addModerationRecord`, `overrule`,
`createProposal`, `castVote` and `executeProposal` all revert (changing
no state) with the `Pausable` guard error — reached directly for the
ungated entry points, and once the caller passes the role gate for the
role-gated ones, since `onlyRole` runs before `whenNotPaused` — whereas
`setVotingPeriod`, `setExecutionDelay` and `setQuorum` never consult the
pause flag and succeed for an Admin with an otherwise valid value even
while paused. -/
theorem claimC2_pause_gate :
    (∀ (s : Moderation.ModState) c ts cid ch fl cats score reason,
      s.paused = true → hasRole s.roles Role.MODERATOR c = true →
      Moderation.addModerationRecord s c ts cid ch fl cats score reason
        = .error .pausedGuard) ∧
    (∀ (s : Moderation.ModState) c rid reason, s.paused = true →
      hasRole s.roles Role.ADMIN c = true →
      Moderation.overruleModeration s c rid reason = .error .pausedGuard) ∧
    (∀ (s : Governance.GovState) c ts t d, s.paused = true →
      hasRole s.roles Role.PROPOSER c = true →
      Governance.createProposal s c ts t d = .error .pausedGuard) ∧
    (∀ (s : Governance.GovState) c ts bal pid sup, s.paused = true →
      Governance.castVote s c ts bal pid sup = .error .pausedGuard) ∧
    (∀ (s : Governance.GovState) ts pid, s.paused = true →
      Governance.executeProposal s ts pid = .error .pausedGuard) ∧
    (∀ (s : Governance.GovState) c v, s.paused = true →
      hasRole s.roles Role.ADMIN c = true → 0 < v →
      isSuccess (Governance.setVotingPeriod s c v) = true ∧
      isSuccess (Governance.setExecutionDelay s c v) = true ∧
      isSuccess (Governance.setQuorum s c v) = true) := by
  refine ⟨?_, ?_, ?_, ?_, ?_, ?_⟩
  · intro s c ts cid ch fl cats score reason hp hr
    simp [Moderation.addModerationRecord, hp, hr]
  · intro s c rid reason hp hr
    simp [Moderation.overruleModeration, hp, hr]
  · intro s c ts t d hp hr
    simp [Governance.createProposal, hp, hr]
  · intro s c ts bal pid sup hp
    simp [Governance.castVote, hp]
  · intro s ts pid hp
    simp [Governance.executeProposal, hp]
  · intro s c v hp hr hv
    refine ⟨?_, ?_, ?_⟩
    · simp [Governance.setVotingPeriod, hr, hv, isSuccess]
    · simp [Governance.setExecutionDelay, hr, isSuccess]
    · simp [Governance.setQuorum, hr, hv, isSuccess]

/-- C2 witness: on the concrete paused states, a moderator's add and any
vote revert with the pause error, while the Admin's `setQuorum`
succeeds. -/
theorem claimC2_witness :
    Moderation.addModerationRecord modPausedW "mod" 1 "c" "h" true [] 5 "r"
      = .error .pausedGuard ∧
    Governance.castVote govPausedW "carol" 1 (fun _ => 5) 0 true
      = .error .pausedGuard ∧
    isSuccess (Governance.setQuorum govPausedW "admin" 7) = true :=
  ⟨claimC2_pause_gate.1 modPausedW "mod" 1 "c" "h" true [] 5 "r" rfl
      (by decide),
   claimC2_pause_gate.2.2.2.1 govPausedW "carol" 1 (fun _ => 5) 0 true rfl,
   (claimC2_pause_gate.2.2.2.2.2 govPausedW "admin" 7 rfl (by decide)
      (by decide)).2.2⟩

/-- C5 counterexample: an Admin's `setExecutionDelay 0` succeeds — the
source has no positivity `require` on this setter, refuting the claim
that each of the three setters rejects non-positive values. -/
theorem claimC5_counterexample :
    hasRole Governance.govW.roles Role.ADMIN "admin" = true ∧
    isSuccess (Governance.setExecutionDelay Governance.govW "admin" 0)
      = true :=
  ⟨rfl, rfl⟩

/-- C5 (amended): `setVotingPeriod` and `setQuorum` succeed exactly when
the caller has Admin and the value is strictly positive, updating only
their field; `setExecutionDelay` succeeds exactly when the caller has
Admin, accepting any value including zero.  A failing call reverts and
so leaves the configuration unchanged. -/
theorem claimC5_setters (s : Governance.GovState) (c : String) (v : Nat) :
    (isSuccess (Governance.setVotingPeriod s c v) = true ↔
      hasRole s.roles Role.ADMIN c = true ∧ 0 < v) ∧
    (∀ s2, Governance.setVotingPeriod s c v = .ok s2 →
      s2 = { s with votingPeriod := v }) ∧
    (isSuccess (Governance.setQuorum s c v) = true ↔
      hasRole s.roles Role.ADMIN c = true ∧ 0 < v) ∧
    (∀ s2, Governance.setQuorum s c v = .ok s2 →
      s2 = { s with quorum := v }) ∧
    (isSuccess (Governance.setExecutionDelay s c v) = true ↔
      hasRole s.roles Role.ADMIN c = true) ∧
    (∀ s2, Governance.setExecutionDelay s c v = .ok s2 →
      s2 = { s with executionDelay := v }) := by
  by_cases hr : hasRole s.roles Role.ADMIN c
  · by_cases hv : 0 < v
    · refine ⟨?_, ?_, ?_, ?_, ?_, ?_⟩
      · simp [Governance.setVotingPeriod, hr, hv, isSuccess]
      · intro s2 h
        simp [Governance.setVotingPeriod, hr, hv] at h
        exact h.symm
      · simp [Governance.setQuorum, hr, hv, isSuccess]
      · intro s2 h
        simp [Governance.setQuorum, hr, hv] at h
        exact h.symm
      · simp [Governance.setExecutionDelay, hr, isSuccess]
      · intro s2 h
        simp [Governance.setExecutionDelay, hr] at h
        exact h.symm
    · refine ⟨?_, ?_, ?_, ?_, ?_, ?_⟩
      · simp [Governance.setVotingPeriod, hr, hv, isSuccess]
      · intro s2 h
        simp [Governance.setVotingPeriod, hr, hv] at h
      · simp [Governance.setQuorum, hr, hv, isSuccess]
      · intro s2 h
        simp [Governance.setQuorum, hr, hv] at h
      · simp [Governance.setExecutionDelay, hr, isSuccess]
      · intro s2 h
        simp [Governance.setExecutionDelay, hr] at h
        exact h.symm
  · refine ⟨?_, ?_, ?_, ?_, ?_, ?_⟩
    · simp [Governance.setVotingPeriod, hr, isSuccess]
    · intro s2 h
      simp [Governance.setVotingPeriod, hr] at h
    · simp [Governance.setQuorum, hr, isSuccess]
    · intro s2 h
      simp [Governance.setQuorum, hr] at h
    · simp [Governance.setExecutionDelay, hr, isSuccess]
    · intro s2 h
      simp [Governance.setExecutionDelay, hr] at h

/-- C5 witness: the Admin updates the voting period of the witness
state. -/
theorem claimC5_witness :
    isSuccess (Governance.setVotingPeriod Governance.govW "admin" 3)
      = true :=
  (claimC5_setters Governance.govW "admin" 3).1.mpr ⟨by decide, by decide⟩

namespace DAO

/-- C8 counterexample: the string raw code `"Garbage"` is not in any
vocabulary, yet `_mapStatus` returns its lowercasing `"garbage"`, not
`"unknown"` — string codes bypass the vocabulary entirely, refuting the
claim that every out-of-vocabulary code normalizes to Unknown. -/
theorem claimC8_counterexample :
    mapStatus "compound" (RawStatus.str "Garbage") = "garbage" ∧
    "garbage" ∉ usedVocab "compound" ∧ "garbage" ≠ "unknown" :=
  ⟨rfl, by decide, by decide⟩

/-- C8 (amended): `_mapStatus` is total and never raises on numeric or
string codes; a numeric code is looked up in the bound variant's ordered
vocabulary (the compound vocabulary when the variant supplies none) and
yields either a vocabulary entry or `"unknown"` — in particular every
negative or out-of-range index yields `"unknown"` — while a string code
is returned lowercased verbatim, without any vocabulary check. -/
theorem claimC8_mapStatus (daoType : String) (n : Int) (s : String) :
    (mapStatus daoType (RawStatus.num n) ∈ usedVocab daoType ∨
      mapStatus daoType (RawStatus.num n) = "unknown") ∧
    ((n < 0 ∨ (usedVocab daoType).length ≤ n.toNat) →
      mapStatus daoType (RawStatus.num n) = "unknown") ∧
    mapStatus daoType (RawStatus.str s) = jsToLower s := by
  refine ⟨?_, ?_, rfl⟩
  · by_cases h0 : 0 ≤ n
    · rcases hg : (usedVocab daoType)[n.toNat]? with _ | v
      · right
        simp [mapStatus, h0, hg]
      · by_cases hv : v = ""
        · right
          simp [mapStatus, h0, hg, hv]
        · left
          have : mapStatus daoType (RawStatus.num n) = v := by
            simp [mapStatus, h0, hg, hv]
          rw [this]
          exact List.getElem?_mem hg
    · right
      simp [mapStatus, h0]
  · intro h
    rcases h with h | h
    · have h0 : ¬ (0 ≤ n) := by omega
      simp [mapStatus, h0]
    · by_cases h0 : 0 ≤ n
      · have hg : (usedVocab daoType)[n.toNat]? = none :=
          List.getElem?_eq_none h
        simp [mapStatus, h0, hg]
      · simp [mapStatus, h0]

/-- C8 witness: an out-of-range numeric code on the moloch vocabulary
normalizes to `"unknown"`. -/
theorem claimC8_witness :
    mapStatus "moloch" (RawStatus.num 99) = "unknown" :=
  (claimC8_mapStatus "moloch" 99 "x").2.1 (Or.inr (by decide))

/-- Backend used by the concrete adapter scenarios: every power source
reports zero, `members` reports no record, and no custom lookup is
configured. -/
def emptyBackend : Backend :=
  { getCurrentVotes := fun _ => .ok "0"
    getVotes := fun _ => .ok "0"
    balanceOf := fun _ => .ok "0"
    members := fun _ => .ok none
    custom := none }

/-- C9 counterexample: with no account argument and no connected current
account, `getVotingPower` throws `"No account specified"` instead of
returning the weight `0`, refuting the claim that it never fails when no
principal is resolvable. -/
theorem claimC9_counterexample :
    getVotingPower emptyBackend id "compound" none none
      = .error "No account specified" :=
  rfl

/-- C9 (amended): `getVotingPower` returns the weight `"0"` rather than
failing when the moloch backend has no member record for the resolved
principal, or when the custom variant has no lookup configured; but when
no principal is resolvable it throws `"No account specified"`, and a
backend call failure is rethrown as-is. -/
theorem claimC9_getVotingPower (b : Backend) (fw : String → String)
    (daoType : String) (curr acct : Option String) :
    (resolveAccount acct curr = none →
      getVotingPower b fw daoType curr acct
        = .error "No account specified") ∧
    (∀ u, resolveAccount acct curr = some u → b.members u = .ok none →
      getVotingPower b fw "moloch" curr acct = .ok "0") ∧
    (∀ u, resolveAccount acct curr = some u → b.custom = none →
      getVotingPower b fw "custom" curr acct = .ok "0") ∧
    (∀ u e, resolveAccount acct curr = some u →
      jsToLower daoType = "compound" → b.getCurrentVotes u = .error e →
      getVotingPower b fw daoType curr acct = .error e) := by
  refine ⟨?_, ?_, ?_, ?_⟩
  · intro h
    simp [getVotingPower, h]
  · intro u hres hmem
    have h1 : (jsToLower "moloch" = "compound") = False := by decide
    have h2 : (jsToLower "moloch" = "openzeppelin") = False := by decide
    have h3 : (jsToLower "moloch" = "aragon") = False := by decide
    have h4 : (jsToLower "moloch" = "moloch") = True := by decide
    have hlen : ¬ (10 < ("0" : String).length) := by decide
    simp only [getVotingPower, hres, h1, h2, h3, h4, if_false, if_true,
      hmem, hlen]
    simp [hlen]
  · intro u hres hcust
    have h1 : (jsToLower "custom" = "compound") = False := by decide
    have h2 : (jsToLower "custom" = "openzeppelin") = False := by decide
    have h3 : (jsToLower "custom" = "aragon") = False := by decide
    have h4 : (jsToLower "custom" = "moloch") = False := by decide
    have h5 : (jsToLower "custom" = "custom") = True := by decide
    have hlen : ¬ (10 < ("0" : String).length) := by decide
    simp only [getVotingPower, hres, h1, h2, h3, h4, h5, if_false,
      if_true, hcust]
    simp [hlen]
  · intro u e hres hdt herr
    simp [getVotingPower, hres, hdt, herr]

/-- C9 witness: a resolved principal with no moloch member record maps
to voting power `"0"`. -/
theorem claimC9_witness :
    getVotingPower emptyBackend id "moloch" (some "0xabc") none
      = .ok "0" :=
  (claimC9_getVotingPower emptyBackend id "moloch" (some "0xabc")
      none).2.1 "0xabc" rfl rfl

end DAO

end ScaleGuardian
